import Mathlib

/-!
Verification of the scheduling core of internet_blocker.py.

Embedding conventions:
* An absolute instant (Python datetime) is an integer number of
  microseconds counted from an arbitrary midnight; a calendar day is
  86400000000 microseconds.  Replacing the time-of-day fields of a
  datetime, as in now.replace(hour=..., minute=..., second=0,
  microsecond=0), is floor-to-midnight plus the time-of-day offset.
* A dt.time value built by parse_hhmm has second = microsecond = 0, so
  it is a pair of hour and minute; comparison of dt.time values is
  lexicographic, which on such values agrees with comparing their
  microsecond offsets.
* Strings are lists of characters (Python str is a sequence of code
  points); the model of int() covers the ASCII fragment of the grammar
  of Python integer literals (optional surrounding whitespace, optional
  single sign, digits with single underscores between them).
* The main loop is a fueled interpreter driven by three oracle streams:
  the successive values returned by dt.datetime.now(), the outcome of
  each block/unblock capability call, and the outcome of each
  sleep_until call (ran to completion, or a KeyboardInterrupt arrived
  during it).  It records the capability invocations it performs and
  the exit code of main; running out of fuel or out of oracle input
  yields none instead of an exit code.
-/

/-- Microseconds in one calendar day. -/
def usPerDay : Int := 86400000000

/-- Microseconds in thirty seconds, the poll cap of sleep_until. -/
def thirtySeconds : Int := 30000000

/-- A dt.time value as produced by parse_hhmm: hour and minute only
(second and microsecond are zero). -/
structure Time where
  hour : Nat
  minute : Nat
deriving DecidableEq, Repr

/-- A Time is valid when its fields are in the ranges dt.time enforces. -/
def Time.valid (t : Time) : Prop := t.hour ≤ 23 ∧ t.minute ≤ 59

instance (t : Time) : Decidable t.valid := by
  unfold Time.valid
  infer_instance

/-- The microsecond offset of a time-of-day from midnight. -/
def timeUs (t : Time) : Int := (t.hour : Int) * 3600000000 + (t.minute : Int) * 60000000

/-- The midnight that starts the day containing the instant:
now.replace(hour=0, minute=0, second=0, microsecond=0). -/
def floorToMidnight (now : Int) : Int := now - now % usPerDay

/-- now.replace(hour=t.hour, minute=t.minute, second=0, microsecond=0). -/
def replaceHM (now : Int) (t : Time) : Int := floorToMidnight now + timeUs t

/-- now.time() as a microsecond offset from midnight. -/
def timeOfDayUs (now : Int) : Int := now % usPerDay

/-- next_occurrence from the source: the next instant, strictly after
now, whose time-of-day equals t. -/
def next_occurrence (now : Int) (t : Time) : Int :=
  let candidate := replaceHM now t
  if candidate ≤ now then candidate + usPerDay else candidate

/-- compute_window from the source, line by line: build both candidates
on the day of now, adjust for the midnight-crossing and already-passed
cases, then re-derive the end when the window lies strictly in the
future. -/
def compute_window (now : Int) (s e : Time) : Int × Int :=
  let start_dt := replaceHM now s
  let end_dt := replaceHM now e
  let p : Int × Int :=
    if timeUs e ≤ timeUs s then
      -- crosses midnight: end is on the next day relative to start
      if timeOfDayUs now < timeUs e then
        (start_dt - usPerDay, end_dt)
      else
        (start_dt, end_dt + usPerDay)
    else
      -- same-day window
      if end_dt < now then
        (start_dt + usPerDay, end_dt + usPerDay)
      else
        (start_dt, end_dt)
  -- if we are before start, ensure end matches the same window as start
  if now < p.1 then
    if timeUs e ≤ timeUs s then
      (p.1, replaceHM (p.1 + usPerDay) e)
    else
      (p.1, replaceHM p.1 e)
  else
    p

/-- within_window from the source: start_dt <= now < end_dt. -/
def within_window (now start_dt end_dt : Int) : Bool :=
  decide (start_dt ≤ now ∧ now < end_dt)

/-- sleep_until from the source, as a trace function: given the target
and the successive readings of dt.datetime.now(), the list of sleep
durations performed; the loop returns (empty tail) exactly when the
remaining time drops to zero or below. -/
def sleep_until (target : Int) : List Int → List Int
  | [] => []
  | now :: rest =>
    if target - now ≤ 0 then []
    else min (target - now) thirtySeconds :: sleep_until target rest

/-- Whitespace stripped by Python int() around a numeral (ASCII part). -/
def isPySpace (c : Char) : Bool :=
  c = ' ' || c = '\t' || c = '\n' || c = '\r' || c = '\x0b' || c = '\x0c'

/-- Strip leading and trailing whitespace, as int() does to its input. -/
def trimChars (l : List Char) : List Char :=
  ((l.dropWhile isPySpace).reverse.dropWhile isPySpace).reverse

/-- The tail of a Python decimal numeral after its first digit: digits
with single underscores allowed between digits, accumulating the value. -/
def digitTail (acc : Nat) : List Char → Option Nat
  | [] => some acc
  | '_' :: c :: cs => if c.isDigit then digitTail (acc * 10 + (c.toNat - 48)) cs else none
  | c :: cs => if c.isDigit then digitTail (acc * 10 + (c.toNat - 48)) cs else none

/-- Python int() on a string, restricted to the ASCII fragment of its
grammar: optional surrounding whitespace, optional single sign, a
nonempty digit sequence with single underscores between digits. -/
def pyIntChars (l : List Char) : Option Int :=
  match trimChars l with
  | [] => none
  | '+' :: c :: cs =>
    if c.isDigit then (digitTail (c.toNat - 48) cs).map (fun n => (n : Int)) else none
  | '-' :: c :: cs =>
    if c.isDigit then (digitTail (c.toNat - 48) cs).map (fun n => -(n : Int)) else none
  | c :: cs =>
    if c.isDigit then (digitTail (c.toNat - 48) cs).map (fun n => (n : Int)) else none

/-- Python s.split on a single colon separator. -/
def splitColon : List Char → List (List Char)
  | [] => [[]]
  | c :: cs =>
    if c = ':' then [] :: splitColon cs
    else
      match splitColon cs with
      | [] => [[c]]
      | p :: ps => (c :: p) :: ps

/-- parse_hhmm from the source: unpack the colon split into exactly two
fields, convert each with int(), range-check, and build the dt.time;
any failure raises ArgumentTypeError, modelled as none. -/
def parse_hhmm (l : List Char) : Option Time :=
  match splitColon l with
  | [h, m] =>
    match pyIntChars h, pyIntChars m with
    | some hi, some mi =>
      if 0 ≤ hi ∧ hi ≤ 23 ∧ 0 ≤ mi ∧ mi ≤ 59 then some ⟨hi.toNat, mi.toNat⟩ else none
    | _, _ => none
  | _ => none

/-- The strict HH:MM shape the spec describes (two digits, a colon, two
digits, hour at most 23, minute at most 59).  Stated from the words of
the spec, to compare with parse_hhmm, which is taken from the source. -/
def specHHMM (l : List Char) : Option Time :=
  match l with
  | [h1, h2, ':', m1, m2] =>
    if h1.isDigit ∧ h2.isDigit ∧ m1.isDigit ∧ m2.isDigit then
      if 10 * (h1.toNat - 48) + (h2.toNat - 48) ≤ 23
          ∧ 10 * (m1.toNat - 48) + (m2.toNat - 48) ≤ 59 then
        some ⟨10 * (h1.toNat - 48) + (h2.toNat - 48), 10 * (m1.toNat - 48) + (m2.toNat - 48)⟩
      else none
    else none
  | _ => none

/-- The canonical two-digit rendering of an in-range hour and minute. -/
def hhmmChars (h m : Nat) : List Char :=
  [Nat.digitChar (h / 10), Nat.digitChar (h % 10), ':',
   Nat.digitChar (m / 10), Nat.digitChar (m % 10)]

/-- block_network from the source: the external command it runs for each
supported platform, or none for the RuntimeError raised on any other
platform. -/
def block_network (os_name : String) (name : Option String) : Option (List String) :=
  if os_name = "Linux" then
    some ["nmcli", "networking", "off"]
  else if os_name = "Darwin" then
    some ["networksetup", "-setnetworkserviceenabled", name.getD "Wi-Fi", "off"]
  else if os_name = "Windows" then
    some ["netsh", "interface", "set", "interface", "name=" ++ name.getD "Wi-Fi",
      "admin=disabled"]
  else none

/-- unblock_network from the source, same dispatch as block_network. -/
def unblock_network (os_name : String) (name : Option String) : Option (List String) :=
  if os_name = "Linux" then
    some ["nmcli", "networking", "on"]
  else if os_name = "Darwin" then
    some ["networksetup", "-setnetworkserviceenabled", name.getD "Wi-Fi", "on"]
  else if os_name = "Windows" then
    some ["netsh", "interface", "set", "interface", "name=" ++ name.getD "Wi-Fi",
      "admin=enabled"]
  else none

/-- Outcome of one block/unblock capability call: success, a
subprocess.CalledProcessError, or any other exception (notably the
RuntimeError of an unsupported platform). -/
inductive Cap
  | ok
  | procErr
  | exc
deriving DecidableEq, Repr

/-- Outcome of one sleep_until call in main: it ran to completion, or a
KeyboardInterrupt arrived during it. -/
inductive Slp
  | done
  | intr
deriving DecidableEq, Repr

/-- A capability invocation performed by main. -/
inductive Ev
  | block
  | unblock
deriving DecidableEq, Repr

/-- The KeyboardInterrupt handler of main (lines 178 to 187): if blocked,
call unblock_network once inside a try that catches every Exception, so
the handler returns 0 whatever the outcome of that call; if not blocked,
no call is made and it returns 0. -/
def cleanupRun (blocked : Bool) (caps : List Cap) : List Ev × Option Nat :=
  if blocked then
    match caps with
    | [] => ([], none)
    | _ :: _ => ([Ev.unblock], some 0)
  else ([], some 0)

/-- The rest of an in-window iteration of main once blocked is True:
sleep_until(end_dt), read now2, unblock, then either return 0 in once
mode or loop.  evs are the events already performed this iteration and
recur is the loop with one unit of fuel consumed. -/
def insideBody (evs : List Ev) (caps : List Cap) (sleeps : List Slp) (clock1 : List Int)
    (once : Bool) (recur : Bool → List Int → List Cap → List Slp → List Ev × Option Nat) :
    List Ev × Option Nat :=
  match sleeps with
  | [] => (evs, none)
  | Slp.intr :: _ =>
    match cleanupRun true caps with
    | (evs2, r) => (evs ++ evs2, r)
  | Slp.done :: sleeps1 =>
    match clock1 with
    | [] => (evs, none)
    | _now2 :: clock2 =>
      match caps with
      | [] => (evs, none)
      | Cap.procErr :: _ => (evs ++ [Ev.unblock], some 3)
      | Cap.exc :: _ => (evs ++ [Ev.unblock], some 4)
      | Cap.ok :: caps2 =>
        if once then (evs ++ [Ev.unblock], some 0)
        else
          match recur false clock2 caps2 sleeps1 with
          | (evs3, r) => (evs ++ [Ev.unblock] ++ evs3, r)

/-- The main scheduling loop (lines 153 to 193), one fuel unit per
iteration.  Oracle streams: clock yields the values of
dt.datetime.now(); caps yields the outcome of each capability call in
order; sleeps yields the outcome of each sleep_until call.  A return of
none means the modelled inputs ran out before main returned.  Exit
codes: 0 normal or interrupted stop, 3 CalledProcessError, 4 any other
exception. -/
def runLoop (ts te : Time) (once : Bool) :
    Nat → Bool → List Int → List Cap → List Slp → List Ev × Option Nat
  | 0, _, _, _, _ => ([], none)
  | fuel + 1, blocked, clock, caps, sleeps =>
    match clock with
    | [] => ([], none)
    | now :: clock1 =>
      let w := compute_window now ts te
      if within_window now w.1 w.2 then
        if blocked then
          insideBody [] caps sleeps clock1 once (runLoop ts te once fuel)
        else
          match caps with
          | [] => ([], none)
          | Cap.procErr :: _ => ([Ev.block], some 3)
          | Cap.exc :: _ => ([Ev.block], some 4)
          | Cap.ok :: caps1 =>
            insideBody [Ev.block] caps1 sleeps clock1 once (runLoop ts te once fuel)
      else
        let _nextTarget := if now < w.1 then w.1 else next_occurrence now ts
        match sleeps with
        | [] => ([], none)
        | Slp.intr :: _ => cleanupRun blocked caps
        | Slp.done :: sleeps1 => runLoop ts te once fuel blocked clock1 caps sleeps1

/-- Helper: bounds of a valid time-of-day offset. -/
theorem timeUs_bounds (t : Time) (h : t.valid) : 0 ≤ timeUs t ∧ timeUs t < usPerDay := by
  obtain ⟨h1, h2⟩ := h
  unfold timeUs usPerDay
  constructor <;> [positivity; omega]

/-- Helper: closed form of compute_window for valid times, in terms of
the midnight of now, the time-of-day of now and the two offsets. -/
theorem compute_window_eq (now : Int) (s e : Time) (hs : s.valid) (he : e.valid) :
    compute_window now s e =
      if timeUs e ≤ timeUs s then
        (if now % usPerDay < timeUs e then
          (now - now % usPerDay + timeUs s - usPerDay, now - now % usPerDay + timeUs e)
        else
          (now - now % usPerDay + timeUs s, now - now % usPerDay + timeUs e + usPerDay))
      else
        (if now - now % usPerDay + timeUs e < now then
          (now - now % usPerDay + timeUs s + usPerDay, now - now % usPerDay + timeUs e + usPerDay)
        else
          (now - now % usPerDay + timeUs s, now - now % usPerDay + timeUs e)) := by
  obtain ⟨hS0, hS1⟩ := timeUs_bounds s hs
  obtain ⟨hE0, hE1⟩ := timeUs_bounds e he
  have hT0 : 0 ≤ now % usPerDay := Int.emod_nonneg now (by norm_num [usPerDay])
  have hT1 : now % usPerDay < usPerDay := Int.emod_lt_of_pos now (by norm_num [usPerDay])
  unfold compute_window replaceHM floorToMidnight timeOfDayUs
  unfold usPerDay at *
  by_cases hc : timeUs e ≤ timeUs s
  · by_cases hT : now % 86400000000 < timeUs e
    · simp only [if_pos hc, if_pos hT]
      have hpost : ¬ now < now - now % 86400000000 + timeUs s - 86400000000 := by omega
      simp only [if_neg hpost]
    · simp only [if_pos hc, if_neg hT]
      by_cases hpost : now < now - now % 86400000000 + timeUs s
      · simp only [if_pos hpost, if_pos hc, Prod.mk.injEq]
        obtain ⟨q, hq⟩ : ∃ q : Int, now - now % 86400000000 = 86400000000 * q :=
          ⟨now / 86400000000, by omega⟩
        rw [hq]
        exact ⟨trivial, by omega⟩
      · simp only [if_neg hpost]
  · by_cases hp : now - now % 86400000000 + timeUs e < now
    · simp only [if_neg hc, if_pos hp]
      by_cases hpost : now < now - now % 86400000000 + timeUs s + 86400000000
      · simp only [if_pos hpost, if_neg hc, Prod.mk.injEq]
        obtain ⟨q, hq⟩ : ∃ q : Int, now - now % 86400000000 = 86400000000 * q :=
          ⟨now / 86400000000, by omega⟩
        rw [hq]
        exact ⟨trivial, by omega⟩
      · simp only [if_neg hpost]
    · simp only [if_neg hc, if_neg hp]
      by_cases hpost : now < now - now % 86400000000 + timeUs s
      · simp only [if_pos hpost, if_neg hc, Prod.mk.injEq]
        obtain ⟨q, hq⟩ : ∃ q : Int, now - now % 86400000000 = 86400000000 * q :=
          ⟨now / 86400000000, by omega⟩
        rw [hq]
        exact ⟨trivial, by omega⟩
      · simp only [if_neg hpost]

/-- C1: for every valid pair of times of day and every instant now,
compute_window returns a pair with a strictly smaller start, including
the degenerate case start = end. -/
theorem c1_compute_window_start_lt_end (now : Int) (s e : Time)
    (hs : s.valid) (he : e.valid) :
    (compute_window now s e).1 < (compute_window now s e).2 := by
  obtain ⟨hS0, hS1⟩ := timeUs_bounds s hs
  obtain ⟨hE0, hE1⟩ := timeUs_bounds e he
  have hT0 : 0 ≤ now % usPerDay := Int.emod_nonneg now (by norm_num [usPerDay])
  have hT1 : now % usPerDay < usPerDay := Int.emod_lt_of_pos now (by norm_num [usPerDay])
  rw [compute_window_eq now s e hs he]
  unfold usPerDay at *
  split_ifs <;> dsimp only <;> omega

/-- Witness for C1 at the degenerate equal-times input. -/
theorem c1_witness :
    (compute_window 0 ⟨0, 0⟩ ⟨0, 0⟩).1 < (compute_window 0 ⟨0, 0⟩ ⟨0, 0⟩).2 :=
  c1_compute_window_start_lt_end 0 ⟨0, 0⟩ ⟨0, 0⟩ (by decide) (by decide)

/-- C2: within_window is the half-open containment test: true exactly on
start_dt ≤ now < end_dt, so true at the start of a window and false at
its end. -/
theorem c2_within_window_halfopen (now start_dt end_dt : Int) :
    (within_window now start_dt end_dt = true ↔ start_dt ≤ now ∧ now < end_dt)
    ∧ (start_dt < end_dt → within_window start_dt start_dt end_dt = true)
    ∧ within_window end_dt start_dt end_dt = false := by
  refine ⟨?_, fun h => ?_, ?_⟩
  · simp [within_window]
  · simp only [within_window, decide_eq_true_iff]
    exact ⟨le_refl _, h⟩
  · simp only [within_window, decide_eq_false_iff_not]
    intro h
    exact absurd h.2 (lt_irrefl _)

/-- Witness for C2 on a concrete window. -/
theorem c2_witness : within_window 0 0 5 = true ∧ within_window 5 0 5 = false :=
  ⟨(c2_within_window_halfopen 0 0 5).2.1 (by decide), (c2_within_window_halfopen 5 0 5).2.2⟩

/-- C5: with schedule 09:00 to 17:00, at 18:00 of any day the resolved
window is 09:00 to 17:00 of the next day, and now is outside it. -/
theorem c5_passed_window_shifts (mid : Int) (hmid : mid % usPerDay = 0) :
    compute_window (mid + 64800000000) ⟨9, 0⟩ ⟨17, 0⟩
        = (mid + 118800000000, mid + 147600000000)
      ∧ within_window (mid + 64800000000) (mid + 118800000000) (mid + 147600000000)
        = false := by
  rw [compute_window_eq _ _ _ (by decide) (by decide)]
  unfold usPerDay at hmid
  have h1 : (mid + 64800000000) % 86400000000 = 64800000000 := by omega
  have hS : timeUs ⟨9, 0⟩ = 32400000000 := by norm_num [timeUs]
  have hE : timeUs ⟨17, 0⟩ = 61200000000 := by norm_num [timeUs]
  rw [hS, hE]
  unfold usPerDay
  rw [h1]
  norm_num
  constructor
  · constructor <;> omega
  · simp only [within_window, decide_eq_false_iff_not]
    intro hcon
    omega

/-- Witness for C5 with the day starting at instant 0. -/
theorem c5_witness :
    compute_window (0 + 64800000000) ⟨9, 0⟩ ⟨17, 0⟩
        = (0 + 118800000000, 0 + 147600000000)
      ∧ within_window (0 + 64800000000) (0 + 118800000000) (0 + 147600000000)
        = false :=
  c5_passed_window_shifts 0 (by decide)

/-- C9: for valid times the window length is positive, at most one day,
and exactly one day precisely when the two times of day are equal. -/
theorem c9_window_length (now : Int) (s e : Time) (hs : s.valid) (he : e.valid) :
    0 < (compute_window now s e).2 - (compute_window now s e).1
    ∧ (compute_window now s e).2 - (compute_window now s e).1 ≤ usPerDay
    ∧ ((compute_window now s e).2 - (compute_window now s e).1 = usPerDay ↔ s = e) := by
  have hT0 : 0 ≤ now % usPerDay := Int.emod_nonneg now (by norm_num [usPerDay])
  have hT1 : now % usPerDay < usPerDay := Int.emod_lt_of_pos now (by norm_num [usPerDay])
  rw [compute_window_eq now s e hs he]
  obtain ⟨sh, sm⟩ := s
  obtain ⟨eh, em⟩ := e
  unfold Time.valid at hs he
  simp only [Time.mk.injEq, timeUs] at *
  unfold usPerDay at *
  split_ifs <;> dsimp only <;> omega

/-- Witness for C9 at an equal-times input, where the length is one day. -/
theorem c9_witness :
    0 < (compute_window 0 ⟨22, 0⟩ ⟨22, 0⟩).2 - (compute_window 0 ⟨22, 0⟩ ⟨22, 0⟩).1
    ∧ (compute_window 0 ⟨22, 0⟩ ⟨22, 0⟩).2 - (compute_window 0 ⟨22, 0⟩ ⟨22, 0⟩).1 ≤ usPerDay
    ∧ ((compute_window 0 ⟨22, 0⟩ ⟨22, 0⟩).2 - (compute_window 0 ⟨22, 0⟩ ⟨22, 0⟩).1 = usPerDay
        ↔ (⟨22, 0⟩ : Time) = ⟨22, 0⟩) :=
  c9_window_length 0 ⟨22, 0⟩ ⟨22, 0⟩ (by decide) (by decide)

/-- C10: for valid times the resolved window never ends before now. -/
theorem c10_end_not_past (now : Int) (s e : Time) (hs : s.valid) (he : e.valid) :
    now ≤ (compute_window now s e).2 := by
  obtain ⟨hS0, hS1⟩ := timeUs_bounds s hs
  obtain ⟨hE0, hE1⟩ := timeUs_bounds e he
  have hT0 : 0 ≤ now % usPerDay := Int.emod_nonneg now (by norm_num [usPerDay])
  have hT1 : now % usPerDay < usPerDay := Int.emod_lt_of_pos now (by norm_num [usPerDay])
  rw [compute_window_eq now s e hs he]
  unfold usPerDay at *
  split_ifs <;> dsimp only <;> omega

/-- Witness for C10 at a concrete instant. -/
theorem c10_witness : (64800000000 : Int) ≤ (compute_window 64800000000 ⟨9, 0⟩ ⟨17, 0⟩).2 :=
  c10_end_not_past 64800000000 ⟨9, 0⟩ ⟨17, 0⟩ (by decide) (by decide)

/-- C6: every sleep performed by sleep_until is positive and at most
thirty seconds, namely min of the remaining time and thirty seconds, and
an iteration returns instead of sleeping exactly when the remaining time
is not positive. -/
theorem c6_sleep_until_bounded :
    (∀ target nows d, d ∈ sleep_until target nows → 0 < d ∧ d ≤ thirtySeconds)
    ∧ (∀ target now rest, sleep_until target (now :: rest) = [] ↔ target - now ≤ 0) := by
  constructor
  · intro target nows
    induction nows with
    | nil => intro d hd; simp [sleep_until] at hd
    | cons a l ih =>
      intro d hd
      simp only [sleep_until] at hd
      by_cases h : target - a ≤ 0
      · rw [if_pos h] at hd
        simp at hd
      · rw [if_neg h] at hd
        rcases List.mem_cons.mp hd with h1 | h2
        · subst h1
          unfold thirtySeconds
          omega
        · exact ih d h2
  · intro target now rest
    simp only [sleep_until]
    by_cases h : target - now ≤ 0
    · simp [if_pos h, h]
    · simp [if_neg h, h]

/-- Witness for C6: a 100 microsecond remainder sleeps 100 microseconds,
and a target already in the past returns at once. -/
theorem c6_witness :
    ((0 : Int) < 100 ∧ (100 : Int) ≤ thirtySeconds) ∧ sleep_until 5 [7] = [] :=
  ⟨c6_sleep_until_bounded.1 100 [0] 100 (by decide),
   (c6_sleep_until_bounded.2 5 7 []).mpr (by decide)⟩

/-- C7 counterexample: parse_hhmm accepts "23:+9", an input that does
not match the HH:MM shape the claim describes, because each field is
converted with the lenient Python int(). -/
theorem c7_counterexample :
    parse_hhmm ['2', '3', ':', '+', '9'] = some ⟨23, 9⟩
      ∧ specHHMM ['2', '3', ':', '+', '9'] = none := by
  constructor <;> rfl

/-- C7 amended: every strict HH:MM string with hour at most 23 and
minute at most 59 is accepted with that value, and every accepted input
yields an in-range time of day; but acceptance is wider than strict
HH:MM, since each field is parsed as a Python integer. -/
theorem c7_parse_hhmm_amended :
    (∀ h, h < 24 → ∀ m, m < 60 → parse_hhmm (hhmmChars h m) = some ⟨h, m⟩)
    ∧ (∀ l t, parse_hhmm l = some t → t.hour ≤ 23 ∧ t.minute ≤ 59) := by
  constructor
  · decide
  · intro l t hp
    unfold parse_hhmm at hp
    split at hp
    · split at hp
      · split_ifs at hp with hrange
        obtain ⟨h1, h2, h3, h4⟩ := hrange
        cases hp
        constructor <;> simp <;> omega
      · exact absurd hp (by simp)
    · exact absurd hp (by simp)

/-- Witness for C7 amended: a strict HH:MM string is accepted, and the
lenient "9:5" acceptance is still in range. -/
theorem c7_witness :
    parse_hhmm (hhmmChars 22 30) = some ⟨22, 30⟩
      ∧ ((⟨9, 5⟩ : Time).hour ≤ 23 ∧ (⟨9, 5⟩ : Time).minute ≤ 59) :=
  ⟨c7_parse_hhmm_amended.1 22 (by decide) 30 (by decide),
   c7_parse_hhmm_amended.2 ['9', ':', '5'] ⟨9, 5⟩ (by rfl)⟩

/-- C3: if a KeyboardInterrupt arrives during the sleep of the Blocking
state, at any point of the window, main performs exactly one further
capability call, the cleanup unblock, and returns 0 whatever the outcome
of that call. -/
theorem c3_interrupt_while_blocked (ts te : Time) (once : Bool) (fuel : Nat) (now : Int)
    (clock1 : List Int) (c : Cap) (caps : List Cap) (sleeps : List Slp)
    (hw : within_window now (compute_window now ts te).1 (compute_window now ts te).2 = true) :
    runLoop ts te once (fuel + 1) false (now :: clock1) (Cap.ok :: c :: caps)
        (Slp.intr :: sleeps)
      = ([Ev.block, Ev.unblock], some 0) := by
  rw [runLoop.eq_def]
  simp only [hw, if_true, Bool.false_eq_true, if_false, insideBody, cleanupRun]
  rfl

/-- Witness for C3: interrupted at 23:00 inside a 22:00 to 06:00 window,
with a failing cleanup call. -/
theorem c3_witness :
    runLoop ⟨22, 0⟩ ⟨6, 0⟩ false (0 + 1) false (82800000000 :: []) (Cap.ok :: Cap.procErr :: [])
        (Slp.intr :: [])
      = ([Ev.block, Ev.unblock], some 0) :=
  c3_interrupt_while_blocked ⟨22, 0⟩ ⟨6, 0⟩ false 0 82800000000 [] Cap.procErr [] []
    (by decide)

/-- C4: in run-once mode, if every capability call succeeds and no
interrupt arrives, a terminating run of main performs exactly one block
followed by one unblock and returns 0. -/
theorem c4_run_once (ts te : Time) (fuel : Nat) (clock : List Int) (caps : List Cap)
    (sleeps : List Slp) (tr : List Ev) (code : Nat)
    (hcaps : ∀ c ∈ caps, c = Cap.ok) (hsleeps : ∀ x ∈ sleeps, x = Slp.done)
    (hrun : runLoop ts te true fuel false clock caps sleeps = (tr, some code)) :
    tr = [Ev.block, Ev.unblock] ∧ code = 0 := by
  induction fuel generalizing clock caps sleeps with
  | zero => simp [runLoop] at hrun
  | succ n ih =>
    cases clock with
    | nil => simp [runLoop] at hrun
    | cons now clock1 =>
      rw [runLoop.eq_def] at hrun
      by_cases hw :
          within_window now (compute_window now ts te).1 (compute_window now ts te).2 = true
      · simp only [hw, if_true, Bool.false_eq_true, if_false] at hrun
        cases caps with
        | nil => simp at hrun
        | cons c caps1 =>
          have hc : c = Cap.ok := hcaps c (List.mem_cons_self c caps1)
          subst hc
          simp only [insideBody] at hrun
          cases sleeps with
          | nil => simp at hrun
          | cons x sleeps1 =>
            have hx : x = Slp.done := hsleeps x (List.mem_cons_self x sleeps1)
            subst hx
            simp only at hrun
            cases clock1 with
            | nil => simp at hrun
            | cons now2 clock2 =>
              cases caps1 with
              | nil => simp at hrun
              | cons c2 caps2 =>
                have hc2 : c2 = Cap.ok :=
                  hcaps c2 (List.mem_cons_of_mem _ (List.mem_cons_self c2 caps2))
                subst hc2
                simp only [if_true, List.singleton_append, Prod.mk.injEq,
                  Option.some.injEq] at hrun
                exact ⟨hrun.1.symm, hrun.2.symm⟩
      · simp only [hw, Bool.false_eq_true, if_false] at hrun
        cases sleeps with
        | nil => simp at hrun
        | cons x sleeps1 =>
          have hx : x = Slp.done := hsleeps x (List.mem_cons_self x sleeps1)
          subst hx
          simp only at hrun
          exact ih clock1 caps sleeps1 hcaps
            (fun y hy => hsleeps y (List.mem_cons_of_mem _ hy)) hrun

/-- Witness for C4: a one-cycle run inside a 22:00 to 06:00 window. -/
theorem c4_witness :
    ([Ev.block, Ev.unblock] : List Ev) = [Ev.block, Ev.unblock] ∧ (0 : Nat) = 0 :=
  c4_run_once ⟨22, 0⟩ ⟨6, 0⟩ 1 [82800000000, 108000000000] [Cap.ok, Cap.ok] [Slp.done]
    [Ev.block, Ev.unblock] 0 (by decide) (by decide) (by rfl)

/-- C8: on a platform other than Linux, Darwin or Windows both
capability functions raise (no command is selected), the first such use
inside the loop ends main at once with exit code 4, and 4 differs from
the other exit codes of the program (0 clean stop, 2 unblock-now
failure, 3 failed platform command). -/
theorem c8_unsupported_platform :
    (∀ osName : String, ∀ nm : Option String,
        osName ≠ "Linux" → osName ≠ "Darwin" → osName ≠ "Windows" →
          block_network osName nm = none ∧ unblock_network osName nm = none)
    ∧ (∀ ts te : Time, ∀ once : Bool, ∀ fuel : Nat, ∀ now : Int, ∀ clock1 : List Int,
        ∀ caps : List Cap, ∀ sleeps : List Slp,
          within_window now (compute_window now ts te).1 (compute_window now ts te).2 = true →
            runLoop ts te once (fuel + 1) false (now :: clock1) (Cap.exc :: caps) sleeps
              = ([Ev.block], some 4))
    ∧ ((4 : Nat) ≠ 0 ∧ (4 : Nat) ≠ 2 ∧ (4 : Nat) ≠ 3) := by
  refine ⟨?_, ?_, by decide⟩
  · intro osName nm h1 h2 h3
    unfold block_network unblock_network
    rw [if_neg h1, if_neg h2, if_neg h3, if_neg h1, if_neg h2, if_neg h3]
    exact ⟨rfl, rfl⟩
  · intro ts te once fuel now clock1 caps sleeps hw
    rw [runLoop.eq_def]
    simp only [hw, if_true, Bool.false_eq_true, if_false]

/-- Witness for C8 on a made-up platform name and a concrete in-window
loop state. -/
theorem c8_witness :
    (block_network "Plan9" none = none ∧ unblock_network "Plan9" none = none)
    ∧ runLoop ⟨22, 0⟩ ⟨6, 0⟩ false (0 + 1) false (82800000000 :: []) (Cap.exc :: []) []
        = ([Ev.block], some 4) :=
  ⟨c8_unsupported_platform.1 "Plan9" none (by decide) (by decide) (by decide),
   c8_unsupported_platform.2.1 ⟨22, 0⟩ ⟨6, 0⟩ false 0 82800000000 [] [] [] (by decide)⟩
